import Mathlib

/-!
Shallow embedding of the dockable panel layout engine (`PanelManager.js`)
of the orbrya engine prototype, together with the creation call sites in
`CodeEditor.js` / `VisualProfiler.js` that combine `getSavedState` with
`createPanel`.

Modelling conventions:
* Pixel quantities are modelled as `Int` (all values flowing through the
  engine originate from integer pointer coordinates and integer defaults).
* A DOM element is modelled by the data the engine reads back from it:
  its style geometry (`left/top/width/height`), its style `zIndex`, and
  the css classes the engine itself toggles (`focused`, `hidden`,
  `maximized`).  Purely cosmetic classes (`dragging`, `resizing`), the
  cursor, the snap guide elements and DOM event dispatch are not part of
  the observable state the claims talk about and are omitted.
* `localStorage` under the single key `orbrya_panels` is modelled by the
  `store` field; `JSON.stringify` followed by `JSON.parse` on the saved
  mapping is the identity on this structured value, so serialization is
  modelled as storing the mapping itself.
* In `toggleMaximize`, the restore branch reads `prev.left` etc.; in JS a
  `null` `prevBounds` there would throw.  That state satisfies
  `maximized = true` with `prevBounds = none` and is modelled with a
  zero-geometry default; it is unreachable under the maximize invariant.
-/

set_option autoImplicit false

namespace Orbrya

/-- Rectangle geometry, the style `left/top/width/height` of a panel. -/
structure Geometry where
  x : Int
  y : Int
  width : Int
  height : Int
deriving DecidableEq, Repr

/-- Immutable per-panel configuration captured by `createPanel`. -/
structure PanelConfig where
  minWidth : Int
  minHeight : Int
  resizable : Bool
  closable : Bool
deriving DecidableEq, Repr

/-- The mutable `state` record stored in the panels map. -/
structure PanelFlags where
  minimized : Bool
  maximized : Bool
  prevBounds : Option Geometry
deriving DecidableEq, Repr

/-- A panel entry: the element data the engine reads and writes plus the
`config` and `state` records kept in the `panels` map. -/
structure Panel where
  geom : Geometry
  zIndex : Int
  focused : Bool
  hidden : Bool
  maximizedClass : Bool
  config : PanelConfig
  flags : PanelFlags
deriving DecidableEq, Repr

/-- Resize handle identifier, one of the eight handles created by
`createResizeHandles`. -/
inductive Dir where
  | n | s | e | w | ne | nw | se | sw
deriving DecidableEq, Repr

/-- Whether `direction.includes` the letter `e`. -/
def Dir.hasE : Dir → Bool
  | .e | .ne | .se => true
  | _ => false

/-- Whether `direction.includes` the letter `w`. -/
def Dir.hasW : Dir → Bool
  | .w | .nw | .sw => true
  | _ => false

/-- Whether `direction.includes` the letter `n`. -/
def Dir.hasN : Dir → Bool
  | .n | .ne | .nw => true
  | _ => false

/-- Whether `direction.includes` the letter `s`. -/
def Dir.hasS : Dir → Bool
  | .s | .se | .sw => true
  | _ => false

/-- The `dragState` record captured by `startDrag`. -/
structure DragData where
  id : String
  startX : Int
  startY : Int
  startLeft : Int
  startTop : Int
  width : Int
  height : Int
deriving DecidableEq, Repr

/-- The `resizeState` record captured by `startResize`. -/
structure ResizeData where
  id : String
  direction : Dir
  startX : Int
  startY : Int
  startLeft : Int
  startTop : Int
  startWidth : Int
  startHeight : Int
  minWidth : Int
  minHeight : Int
deriving DecidableEq, Repr

/-- One entry of the persisted layout document. -/
structure SavedEntry where
  x : Int
  y : Int
  width : Int
  height : Int
  minimized : Bool
  maximized : Bool
deriving DecidableEq, Repr

/-- Workspace bounding rectangle dimensions. -/
structure Workspace where
  width : Int
  height : Int
deriving DecidableEq, Repr

/-- Result record of `calculateSnap`. -/
structure SnapResult where
  snapX : Int
  snapY : Int
  snappedV : Bool
  snappedH : Bool
  snapPosV : Int
  snapPosH : Int
deriving DecidableEq, Repr

/-- The whole engine state: the `panels` insertion-ordered map, the focus
and interaction fields, and the persistence fields (`savedStates` is the
in-memory loaded mapping, `store` the durable localStorage content). -/
structure PanelManager where
  panels : List (String × Panel)
  activePanel : Option String
  dragState : Option DragData
  resizeState : Option ResizeData
  topZIndex : Int
  savedStates : Option (List (String × SavedEntry))
  store : Option (List (String × SavedEntry))
deriving DecidableEq, Repr

/-- Configuration object accepted by `createPanel`; absent fields are
`none` (`title`, `icon` and `content` are opaque and omitted). -/
structure CreateConfig where
  id : String
  x : Option Int
  y : Option Int
  width : Option Int
  height : Option Int
  minWidth : Option Int
  minHeight : Option Int
  resizable : Option Bool
  closable : Option Bool
deriving DecidableEq, Repr

section AssocOps

variable {α : Type}

/-- Lookup in an insertion-ordered association list (`Map.get`). -/
def lookupA (id : String) : List (String × α) → Option α
  | [] => none
  | (k, a) :: rest => if k = id then some a else lookupA id rest

/-- Update the value at a key in place, leaving other entries alone. -/
def updateA (id : String) (f : α → α) : List (String × α) → List (String × α)
  | [] => []
  | (k, a) :: rest =>
      if k = id then (k, f a) :: updateA id f rest
      else (k, a) :: updateA id f rest

/-- The JS `Map.set`: replace the value in place if the key is present,
otherwise append at the end (insertion order). -/
def setA (id : String) (v : α) : List (String × α) → List (String × α)
  | [] => [(id, v)]
  | (k, a) :: rest =>
      if k = id then (k, v) :: rest else (k, a) :: setA id v rest

/-- The JS `Map.delete`: remove the entry at the key. -/
def removeA (id : String) : List (String × α) → List (String × α)
  | [] => []
  | (k, a) :: rest => if k = id then rest else (k, a) :: removeA id rest

end AssocOps

/-- Snap trigger distance, `this.snapThreshold = 15`. -/
def snapThreshold : Int := 15

/-- Body of the sibling pass of `calculateSnap`: one iteration of
`this.panels.forEach`, skipping the moving panel and hidden/maximized
elements, then running the four horizontal and four vertical edge
relationship checks, each overwriting the accumulator. -/
def siblingStep (panelId : String) (newX newY width height : Int)
    (acc : SnapResult) (entry : String × Panel) : SnapResult :=
  if entry.1 = panelId then acc
  else if entry.2.hidden || entry.2.maximizedClass then acc
  else
    let pLeft := entry.2.geom.x
    let pTop := entry.2.geom.y
    let pRight := pLeft + entry.2.geom.width
    let pBottom := pTop + entry.2.geom.height
    let acc := if |newX - pRight| < snapThreshold then
        { acc with snapX := pRight, snappedV := true, snapPosV := pRight }
      else acc
    let acc := if |newX + width - pLeft| < snapThreshold then
        { acc with snapX := pLeft - width, snappedV := true, snapPosV := pLeft }
      else acc
    let acc := if |newX - pLeft| < snapThreshold then
        { acc with snapX := pLeft, snappedV := true, snapPosV := pLeft }
      else acc
    let acc := if |newX + width - pRight| < snapThreshold then
        { acc with snapX := pRight - width, snappedV := true, snapPosV := pRight }
      else acc
    let acc := if |newY - pBottom| < snapThreshold then
        { acc with snapY := pBottom, snappedH := true, snapPosH := pBottom }
      else acc
    let acc := if |newY + height - pTop| < snapThreshold then
        { acc with snapY := pTop - height, snappedH := true, snapPosH := pTop }
      else acc
    let acc := if |newY - pTop| < snapThreshold then
        { acc with snapY := pTop, snappedH := true, snapPosH := pTop }
      else acc
    let acc := if |newY + height - pBottom| < snapThreshold then
        { acc with snapY := pBottom - height, snappedH := true, snapPosH := pBottom }
      else acc
    acc

/-- `calculateSnap(panelId, newX, newY, width, height)`: the four
workspace edge checks followed by the sibling pass in registry order. -/
def calculateSnap (ws : Workspace) (panelId : String)
    (newX newY width height : Int) (panels : List (String × Panel)) :
    SnapResult :=
  let acc : SnapResult :=
    { snapX := newX, snapY := newY, snappedV := false, snappedH := false,
      snapPosV := 0, snapPosH := 0 }
  let acc := if |newX| < snapThreshold then
      { acc with snapX := 0, snappedV := true, snapPosV := 0 }
    else acc
  let acc := if |newX + width - ws.width| < snapThreshold then
      { acc with snapX := ws.width - width, snappedV := true, snapPosV := ws.width }
    else acc
  let acc := if |newY| < snapThreshold then
      { acc with snapY := 0, snappedH := true, snapPosH := 0 }
    else acc
  let acc := if |newY + height - ws.height| < snapThreshold then
      { acc with snapY := ws.height - height, snappedH := true, snapPosH := ws.height }
    else acc
  panels.foldl (siblingStep panelId newX newY width height) acc

/-- `createPanel(config)`: destructure the config with the hard defaults,
build the element and the map entry, and `Map.set` it (silently
overwriting an existing id).  The new element has no explicit style
`zIndex`, modelled as `0`. -/
def createPanel (cfg : CreateConfig) (m : PanelManager) : PanelManager :=
  let x := cfg.x.getD 100
  let y := cfg.y.getD 100
  let w := cfg.width.getD 300
  let h := cfg.height.getD 400
  let mw := cfg.minWidth.getD 200
  let mh := cfg.minHeight.getD 150
  let rz := cfg.resizable.getD true
  let cl := cfg.closable.getD true
  let p : Panel :=
    { geom := ⟨x, y, w, h⟩, zIndex := 0, focused := false, hidden := false,
      maximizedClass := false,
      config := ⟨mw, mh, rz, cl⟩,
      flags := ⟨false, false, none⟩ }
  { m with panels := setA cfg.id p m.panels }

/-- Clear the `focused` class on every panel
(`this.panels.forEach((data) => data.element.classList.remove('focused'))`). -/
def clearFocused : List (String × Panel) → List (String × Panel)
  | [] => []
  | (k, p) :: rest => (k, { p with focused := false }) :: clearFocused rest

/-- `focusPanel(id)`: clears `focused` everywhere first, then, if the id
is known, bumps `topZIndex`, assigns it to the panel, marks it focused
and records it as `activePanel`. -/
def focusPanel (id : String) (m : PanelManager) : PanelManager :=
  match lookupA id (clearFocused m.panels) with
  | some _ =>
      { m with
        panels := (updateA id
          (fun p => { p with zIndex := m.topZIndex + 1, focused := true })
          (clearFocused m.panels)),
        topZIndex := m.topZIndex + 1,
        activePanel := some id }
  | none => { m with panels := clearFocused m.panels }

/-- `startDrag(e, panel, id)`: focus the panel, then capture the pointer
origin and the panel origin rectangle in `dragState`.  The element always
exists when the header handler fires, so the unknown-id branch is inert. -/
def startDrag (id : String) (clientX clientY : Int) (m : PanelManager) :
    PanelManager :=
  match lookupA id (focusPanel id m).panels with
  | some p =>
      let d : DragData :=
        { id := id, startX := clientX, startY := clientY,
          startLeft := p.geom.x, startTop := p.geom.y,
          width := p.geom.width, height := p.geom.height }
      { focusPanel id m with dragState := some d }
  | none => focusPanel id m

/-- `startResize(e, panel, id, direction)`: focus the panel and capture
the origin rectangle, the handle direction and the minimum sizes.  Resize
handles exist only on `resizable` panels, hence the guard. -/
def startResize (id : String) (direction : Dir) (clientX clientY : Int)
    (m : PanelManager) : PanelManager :=
  match lookupA id (focusPanel id m).panels with
  | some p =>
      if p.config.resizable then
        let r : ResizeData :=
          { id := id, direction := direction,
            startX := clientX, startY := clientY,
            startLeft := p.geom.x, startTop := p.geom.y,
            startWidth := p.geom.width, startHeight := p.geom.height,
            minWidth := p.config.minWidth, minHeight := p.config.minHeight }
        { focusPanel id m with resizeState := some r }
      else focusPanel id m
  | none => focusPanel id m

/-- `handleDrag(e)`: translate the origin rectangle by the pointer delta,
run it through `calculateSnap`, and write the snapped position to the
panel style. -/
def handleDrag (ws : Workspace) (clientX clientY : Int) (m : PanelManager) :
    PanelManager :=
  match m.dragState with
  | none => m
  | some d =>
      let dx := clientX - d.startX
      let dy := clientY - d.startY
      let newX := d.startLeft + dx
      let newY := d.startTop + dy
      let snap := calculateSnap ws d.id newX newY d.width d.height m.panels
      { m with panels := (updateA d.id
          (fun p => { p with geom :=
            { p.geom with x := snap.snapX, y := snap.snapY } }) m.panels) }

/-- `handleResize(e)`: per-axis clamp at the captured minimums; for the
`w`/`n` directions the position is moved only when the clamped size is
strictly above the minimum. -/
def handleResize (clientX clientY : Int) (m : PanelManager) : PanelManager :=
  match m.resizeState with
  | none => m
  | some r =>
      let dx := clientX - r.startX
      let dy := clientY - r.startY
      let newLeft := r.startLeft
      let newTop := r.startTop
      let newWidth := r.startWidth
      let newHeight := r.startHeight
      let newWidth := if r.direction.hasE then
          max r.minWidth (r.startWidth + dx) else newWidth
      let wClamped := max r.minWidth (r.startWidth - dx)
      let newWidth := if r.direction.hasW then wClamped else newWidth
      let newLeft := if r.direction.hasW ∧ wClamped > r.minWidth then
          r.startLeft + dx else newLeft
      let newHeight := if r.direction.hasS then
          max r.minHeight (r.startHeight + dy) else newHeight
      let hClamped := max r.minHeight (r.startHeight - dy)
      let newHeight := if r.direction.hasN then hClamped else newHeight
      let newTop := if r.direction.hasN ∧ hClamped > r.minHeight then
          r.startTop + dy else newTop
      { m with panels := (updateA r.id
          (fun p => { p with geom := ⟨newLeft, newTop, newWidth, newHeight⟩ })
          m.panels) }

/-- `savePanelStates()`: serialize `{x, y, width, height, minimized,
maximized}` for every panel, keyed by id, to the store. -/
def mkEntry (p : Panel) : SavedEntry :=
  { x := p.geom.x, y := p.geom.y,
    width := p.geom.width, height := p.geom.height,
    minimized := p.flags.minimized, maximized := p.flags.maximized }

/-- `savePanelStates()`: write the serialized mapping under the single
storage key. -/
def savePanelStates (m : PanelManager) : PanelManager :=
  { m with store := some (m.panels.map (fun e => (e.1, mkEntry e.2))) }

/-- `loadPanelStates()`: if the store holds data, parse it into
`savedStates`; otherwise leave `savedStates` alone. -/
def loadPanelStates (m : PanelManager) : PanelManager :=
  match m.store with
  | some data => { m with savedStates := some data }
  | none => m

/-- `getSavedState(id)`: `this.savedStates?.[id]`. -/
def getSavedState (m : PanelManager) (id : String) : Option SavedEntry :=
  match m.savedStates with
  | some l => lookupA id l
  | none => none

/-- `handleMouseMove(e)`: dispatch to drag handling when a drag session
exists, else to resize handling when a resize session exists. -/
def handleMouseMove (ws : Workspace) (clientX clientY : Int)
    (m : PanelManager) : PanelManager :=
  if m.dragState.isSome then handleDrag ws clientX clientY m
  else if m.resizeState.isSome then handleResize clientX clientY m
  else m

/-- `handleMouseUp()`: persist when a session was active, then clear both
session records. -/
def handleMouseUp (m : PanelManager) : PanelManager :=
  let m1 := if m.dragState.isSome then savePanelStates m else m
  let m2 := if m1.resizeState.isSome then savePanelStates m1 else m1
  { m2 with dragState := none, resizeState := none }

/-- `minimizePanel(id)`: add the `hidden` class and set the flag; no-op
on an unknown id. -/
def minimizePanel (id : String) (m : PanelManager) : PanelManager :=
  match lookupA id m.panels with
  | none => m
  | some _ =>
      let f : Panel → Panel := fun p =>
        { p with hidden := true, flags := { p.flags with minimized := true } }
      { m with panels := updateA id f m.panels }

/-- `toggleMaximize(id)`: restore from `prevBounds` when maximized (the
flag is cleared but `prevBounds` is left in place), otherwise save the
current geometry into `prevBounds` and mark maximized; no-op on an
unknown id. -/
def toggleMaximize (id : String) (m : PanelManager) : PanelManager :=
  match lookupA id m.panels with
  | none => m
  | some p =>
      if p.flags.maximized then
        let f : Panel → Panel := fun q =>
          { q with geom := q.flags.prevBounds.getD ⟨0, 0, 0, 0⟩,
                   maximizedClass := false,
                   flags := { q.flags with maximized := false } }
        { m with panels := updateA id f m.panels }
      else
        let f : Panel → Panel := fun q =>
          let fl := { q.flags with maximized := true, prevBounds := some q.geom }
          { q with maximizedClass := true, flags := fl }
        { m with panels := updateA id f m.panels }

/-- `closePanel(id)`: remove the element and the map entry, then persist
the remaining panels; no-op on an unknown id. -/
def closePanel (id : String) (m : PanelManager) : PanelManager :=
  match lookupA id m.panels with
  | none => m
  | some _ => savePanelStates { m with panels := removeA id m.panels }

/-- `showPanel(id)`: clear the `hidden` class and the minimized flag,
then focus the panel; no-op on an unknown id. -/
def showPanel (id : String) (m : PanelManager) : PanelManager :=
  match lookupA id m.panels with
  | none => m
  | some _ =>
      let f : Panel → Panel := fun p =>
        { p with hidden := false, flags := { p.flags with minimized := false } }
      focusPanel id { m with panels := updateA id f m.panels }

/-- `getPanel(id)`. -/
def getPanel (m : PanelManager) (id : String) : Option Panel :=
  lookupA id m.panels

/-- A freshly constructed manager before `init` runs: empty registry,
`topZIndex = 100`, no sessions; the store content survives from the
previous engine instance. -/
def freshManager (store : Option (List (String × SavedEntry))) :
    PanelManager :=
  { panels := [], activePanel := none, dragState := none,
    resizeState := none, topZIndex := 100, savedStates := none,
    store := store }

/-- The constructor followed by `init()` (which calls
`loadPanelStates()`; the DOM listener wiring has no state effect). -/
def newPanelManager (store : Option (List (String × SavedEntry))) :
    PanelManager :=
  loadPanelStates (freshManager store)

/-- Panel creation as performed at the call sites
(`CodeEditor.createPanel`, `VisualProfiler.createPanel`): each geometry
field of the config is the persisted value when present, else the caller
fallback (`saved?.x ?? fallback`). -/
def createPanelWithSavedDefaults (m : PanelManager) (pid : String)
    (fx fy fw fh mw mh : Int) : PanelManager :=
  let saved := getSavedState m pid
  createPanel
    { id := pid,
      x := some ((saved.map (fun e => e.x)).getD fx),
      y := some ((saved.map (fun e => e.y)).getD fy),
      width := some ((saved.map (fun e => e.width)).getD fw),
      height := some ((saved.map (fun e => e.height)).getD fh),
      minWidth := some mw, minHeight := some mh,
      resizable := none, closable := none } m

section AssocLemmas

variable {α : Type}

theorem lookupA_map_value {β : Type} (id : String) (g : α → β) :
    ∀ l : List (String × α),
      lookupA id (l.map (fun e => (e.1, g e.2))) = (lookupA id l).map g
  | [] => rfl
  | (k, a) :: rest => by
      by_cases h : k = id <;>
        simp [lookupA, h, lookupA_map_value id g rest]

theorem lookupA_updateA_self (id : String) (f : α → α) :
    ∀ l : List (String × α),
      lookupA id (updateA id f l) = (lookupA id l).map f
  | [] => rfl
  | (k, a) :: rest => by
      by_cases h : k = id <;>
        simp [lookupA, updateA, h, lookupA_updateA_self id f rest]

theorem lookupA_updateA_ne {j id : String} (h : j ≠ id) (f : α → α) :
    ∀ l : List (String × α), lookupA j (updateA id f l) = lookupA j l
  | [] => rfl
  | (k, a) :: rest => by
      by_cases hk : k = id
      · subst hk
        simp [lookupA, updateA, Ne.symm h, lookupA_updateA_ne h f rest]
      · by_cases hj : k = j <;>
          simp [lookupA, updateA, hk, hj, h, lookupA_updateA_ne h f rest]

theorem lookupA_clearFocused (id : String) :
    ∀ l : List (String × Panel),
      lookupA id (clearFocused l)
        = (lookupA id l).map (fun p => { p with focused := false })
  | [] => rfl
  | (k, a) :: rest => by
      by_cases h : k = id <;>
        simp [lookupA, clearFocused, h, lookupA_clearFocused id rest]

theorem lookupA_setA_self (id : String) (v : α) :
    ∀ l : List (String × α), lookupA id (setA id v l) = some v
  | [] => by simp [setA, lookupA]
  | (k, a) :: rest => by
      by_cases h : k = id <;>
        simp [lookupA, setA, h, lookupA_setA_self id v rest]

theorem mem_setA {e : String × α} {id : String} {v : α} :
    ∀ {l : List (String × α)}, e ∈ setA id v l → e = (id, v) ∨ e ∈ l := by
  intro l
  induction l with
  | nil => intro h; simp [setA] at h; simp [h]
  | cons hd tl ih =>
      intro h
      rcases hd with ⟨k, a⟩
      by_cases hk : k = id
      · subst hk
        simp only [setA, if_pos rfl] at h
        rcases List.mem_cons.mp h with h | h
        · left; exact h
        · right; exact List.mem_cons_of_mem _ h
      · simp only [setA, if_neg hk] at h
        rcases List.mem_cons.mp h with h | h
        · right; rw [h]; exact List.mem_cons_self _ _
        · rcases ih h with h | h
          · left; exact h
          · right; exact List.mem_cons_of_mem _ h

theorem mem_removeA {e : String × α} {id : String} :
    ∀ {l : List (String × α)}, e ∈ removeA id l → e ∈ l := by
  intro l
  induction l with
  | nil => intro h; simp [removeA] at h
  | cons hd tl ih =>
      intro h
      rcases hd with ⟨k, a⟩
      by_cases hk : k = id
      · simp only [removeA, if_pos hk] at h
        exact List.mem_cons_of_mem _ h
      · simp only [removeA, if_neg hk] at h
        rcases List.mem_cons.mp h with h | h
        · rw [h]; exact List.mem_cons_self _ _
        · exact List.mem_cons_of_mem _ (ih h)

theorem mem_updateA {e : String × α} {id : String} {f : α → α} :
    ∀ {l : List (String × α)}, e ∈ updateA id f l →
      e ∈ l ∨ ∃ a, (id, a) ∈ l ∧ e = (id, f a) := by
  intro l
  induction l with
  | nil => intro h; simp [updateA] at h
  | cons hd tl ih =>
      intro h
      rcases hd with ⟨k, a⟩
      by_cases hk : k = id
      · subst hk
        simp only [updateA, if_pos rfl] at h
        rcases List.mem_cons.mp h with h | h
        · right; exact ⟨a, List.mem_cons_self _ _, h⟩
        · rcases ih h with h | ⟨b, hb, he⟩
          · left; exact List.mem_cons_of_mem _ h
          · right; exact ⟨b, List.mem_cons_of_mem _ hb, he⟩
      · simp only [updateA, if_neg hk] at h
        rcases List.mem_cons.mp h with h | h
        · left; rw [h]; exact List.mem_cons_self _ _
        · rcases ih h with h | ⟨b, hb, he⟩
          · left; exact List.mem_cons_of_mem _ h
          · right; exact ⟨b, List.mem_cons_of_mem _ hb, he⟩

theorem mem_clearFocused {e : String × Panel} :
    ∀ {l : List (String × Panel)}, e ∈ clearFocused l →
      ∃ p, (e.1, p) ∈ l ∧ e.2 = { p with focused := false } := by
  intro l
  induction l with
  | nil => intro h; simp [clearFocused] at h
  | cons hd tl ih =>
      intro h
      rcases hd with ⟨k, a⟩
      simp only [clearFocused] at h
      rcases List.mem_cons.mp h with h | h
      · refine ⟨a, ?_, ?_⟩
        · rw [h]; exact List.mem_cons_self _ _
        · rw [h]
      · rcases ih h with ⟨p, hp, he⟩
        exact ⟨p, List.mem_cons_of_mem _ hp, he⟩

theorem lookupA_mem {id : String} {a : α} :
    ∀ {l : List (String × α)}, lookupA id l = some a → (id, a) ∈ l := by
  intro l
  induction l with
  | nil => intro h; simp [lookupA] at h
  | cons hd tl ih =>
      intro h
      rcases hd with ⟨k, b⟩
      by_cases hk : k = id
      · subst hk
        have hb : b = a := by simpa [lookupA] using h
        rw [← hb]
        exact List.mem_cons_self _ _
      · simp only [lookupA, if_neg hk] at h
        exact List.mem_cons_of_mem _ (ih h)

/-- Key uniqueness of the panels map (a JS `Map` has unique keys). -/
def keysND (l : List (String × α)) : Prop := (l.map Prod.fst).Nodup

theorem map_fst_updateA (id : String) (f : α → α) :
    ∀ l : List (String × α),
      (updateA id f l).map Prod.fst = l.map Prod.fst
  | [] => rfl
  | (k, a) :: rest => by
      by_cases h : k = id <;>
        simp [updateA, h, map_fst_updateA id f rest]

theorem map_fst_clearFocused :
    ∀ l : List (String × Panel),
      (clearFocused l).map Prod.fst = l.map Prod.fst
  | [] => rfl
  | (k, a) :: rest => by simp [clearFocused, map_fst_clearFocused rest]

theorem keysND_updateA {id : String} {f : α → α} {l : List (String × α)}
    (h : keysND l) : keysND (updateA id f l) := by
  unfold keysND
  rw [map_fst_updateA]
  exact h

theorem keysND_clearFocused {l : List (String × Panel)}
    (h : keysND l) : keysND (clearFocused l) := by
  unfold keysND
  rw [map_fst_clearFocused]
  exact h

theorem mem_keys_setA {j id : String} {v : α} :
    ∀ {l : List (String × α)},
      j ∈ (setA id v l).map Prod.fst → j = id ∨ j ∈ l.map Prod.fst := by
  intro l
  induction l with
  | nil => intro h; simp [setA] at h; simp [h]
  | cons hd tl ih =>
      intro h
      rcases hd with ⟨k, a⟩
      by_cases hk : k = id
      · simp only [setA, if_pos hk, List.map_cons, List.mem_cons] at h
        rcases h with h | h
        · right; simp [h]
        · right; simp [h]
      · simp only [setA, if_neg hk, List.map_cons, List.mem_cons] at h
        rcases h with h | h
        · right; simp [h]
        · rcases ih h with h | h
          · left; exact h
          · right; simp [h]

theorem keysND_setA {id : String} {v : α} :
    ∀ {l : List (String × α)}, keysND l → keysND (setA id v l) := by
  intro l
  induction l with
  | nil => intro _; simp [keysND, setA]
  | cons hd tl ih =>
      intro h
      rcases hd with ⟨k, a⟩
      unfold keysND at h
      simp only [List.map_cons, List.nodup_cons] at h
      by_cases hk : k = id
      · unfold keysND
        simp only [setA, if_pos hk, List.map_cons, List.nodup_cons]
        exact h
      · unfold keysND
        simp only [setA, if_neg hk, List.map_cons, List.nodup_cons]
        constructor
        · intro hmem
          rcases mem_keys_setA hmem with hcase | hcase
          · exact hk hcase
          · exact h.1 hcase
        · exact ih h.2

theorem keysND_removeA {id : String} :
    ∀ {l : List (String × α)}, keysND l → keysND (removeA id l) := by
  intro l
  induction l with
  | nil => intro _; simp [keysND, removeA]
  | cons hd tl ih =>
      intro h
      rcases hd with ⟨k, a⟩
      unfold keysND at h
      simp only [List.map_cons, List.nodup_cons] at h
      by_cases hk : k = id
      · simp only [keysND, removeA, if_pos hk]
        exact h.2
      · unfold keysND
        simp only [removeA, if_neg hk, List.map_cons, List.nodup_cons]
        constructor
        · intro hmem
          rcases List.mem_map.mp hmem with ⟨e, he, heq⟩
          exact h.1 (List.mem_map.mpr ⟨e, mem_removeA he, heq⟩)
        · exact ih h.2

theorem lookupA_of_mem_nodup {id : String} {a : α} :
    ∀ {l : List (String × α)}, keysND l → (id, a) ∈ l →
      lookupA id l = some a := by
  intro l
  induction l with
  | nil => intro _ h; simp at h
  | cons hd tl ih =>
      intro hnd hmem
      rcases hd with ⟨k, b⟩
      unfold keysND at hnd
      simp only [List.map_cons, List.nodup_cons] at hnd
      rcases List.mem_cons.mp hmem with h | h
      · rw [Prod.mk.injEq] at h
        simp [lookupA, h.1.symm, h.2]
      · by_cases hk : k = id
        · exfalso
          apply hnd.1
          rw [hk]
          exact List.mem_map.mpr ⟨(id, a), h, rfl⟩
        · simp only [lookupA, if_neg hk]
          exact ih hnd.2 h

end AssocLemmas

/-- The four horizontal snap rules contributed by one sibling rectangle,
as condition/value pairs in evaluation order. -/
def sibRulesX (newX width : Int) (p : Panel) : List (Bool × Int) :=
  let pLeft := p.geom.x
  let pRight := pLeft + p.geom.width
  [ (decide (|newX - pRight| < snapThreshold), pRight),
    (decide (|newX + width - pLeft| < snapThreshold), pLeft - width),
    (decide (|newX - pLeft| < snapThreshold), pLeft),
    (decide (|newX + width - pRight| < snapThreshold), pRight - width) ]

/-- The four vertical snap rules contributed by one sibling rectangle. -/
def sibRulesY (newY height : Int) (p : Panel) : List (Bool × Int) :=
  let pTop := p.geom.y
  let pBottom := pTop + p.geom.height
  [ (decide (|newY - pBottom| < snapThreshold), pBottom),
    (decide (|newY + height - pTop| < snapThreshold), pTop - height),
    (decide (|newY - pTop| < snapThreshold), pTop),
    (decide (|newY + height - pBottom| < snapThreshold), pBottom - height) ]

/-- Whether a registry entry takes part in the sibling pass: not the
moving panel, not hidden, not maximized. -/
def keepSibling (panelId : String) (e : String × Panel) : Bool :=
  !(decide (e.1 = panelId)) && !(e.2.hidden || e.2.maximizedClass)

/-- All horizontal snap rules in evaluation order: workspace-left,
workspace-right, then the four rules of each kept sibling in registry
order. -/
def snapRulesX (ws : Workspace) (panelId : String) (newX width : Int)
    (panels : List (String × Panel)) : List (Bool × Int) :=
  [ (decide (|newX| < snapThreshold), 0),
    (decide (|newX + width - ws.width| < snapThreshold), ws.width - width) ]
  ++ (panels.filter (keepSibling panelId)).flatMap
      (fun e => sibRulesX newX width e.2)

/-- All vertical snap rules in evaluation order: workspace-top,
workspace-bottom, then the sibling rules in registry order. -/
def snapRulesY (ws : Workspace) (panelId : String) (newY height : Int)
    (panels : List (String × Panel)) : List (Bool × Int) :=
  [ (decide (|newY| < snapThreshold), 0),
    (decide (|newY + height - ws.height| < snapThreshold), ws.height - height) ]
  ++ (panels.filter (keepSibling panelId)).flatMap
      (fun e => sibRulesY newY height e.2)

/-- Sequential overwrite semantics: each matching rule replaces the
accumulated value. -/
def applyRules (d : Int) (rules : List (Bool × Int)) : Int :=
  rules.foldl (fun a r => if r.1 then r.2 else a) d

/-- Last-match-wins semantics: the value of the last matching rule in the
list, or the default when no rule matches. -/
def lastMatch (rules : List (Bool × Int)) (d : Int) : Int :=
  match (rules.filter (fun r => r.1)).getLast? with
  | some r => r.2
  | none => d

theorem applyRules_append (d : Int) (xs ys : List (Bool × Int)) :
    applyRules d (xs ++ ys) = applyRules (applyRules d xs) ys := by
  simp [applyRules, List.foldl_append]

theorem getLast?_cons_ne_none {α : Type} (a : α) (l : List α) :
    (a :: l).getLast? ≠ none := by
  induction l generalizing a with
  | nil => simp
  | cons b m ih => rw [List.getLast?_cons_cons]; exact ih b

theorem applyRules_eq_lastMatch :
    ∀ (rules : List (Bool × Int)) (d : Int),
      applyRules d rules = lastMatch rules d
  | [], d => rfl
  | (c, v) :: rs, d => by
      have hstep : applyRules d ((c, v) :: rs)
          = applyRules (if c then v else d) rs := by
        simp [applyRules]
      rw [hstep, applyRules_eq_lastMatch rs (if c then v else d)]
      unfold lastMatch
      cases c
      · simp [List.filter_cons]
      · simp only [List.filter_cons]
        rcases hf : rs.filter (fun r => r.1) with _ | ⟨x, xs⟩
        · simp [hf]
        · rcases hgl : (x :: xs).getLast? with _ | y
          · exact absurd hgl (getLast?_cons_ne_none x xs)
          · simp [hf, List.getLast?_cons_cons, hgl]

theorem siblingStep_snapX (pid : String) (nx ny w h : Int)
    (acc : SnapResult) (e : String × Panel) :
    (siblingStep pid nx ny w h acc e).snapX =
      if keepSibling pid e then applyRules acc.snapX (sibRulesX nx w e.2)
      else acc.snapX := by
  by_cases h1 : e.1 = pid
  · simp [siblingStep, keepSibling, h1]
  · by_cases h2 : e.2.hidden || e.2.maximizedClass
    · simp [siblingStep, keepSibling, h1, h2]
    · simp [siblingStep, keepSibling, h1, h2, sibRulesX, applyRules,
        apply_ite SnapResult.snapX]

theorem siblingStep_snapY (pid : String) (nx ny w h : Int)
    (acc : SnapResult) (e : String × Panel) :
    (siblingStep pid nx ny w h acc e).snapY =
      if keepSibling pid e then applyRules acc.snapY (sibRulesY ny h e.2)
      else acc.snapY := by
  by_cases h1 : e.1 = pid
  · simp [siblingStep, keepSibling, h1]
  · by_cases h2 : e.2.hidden || e.2.maximizedClass
    · simp [siblingStep, keepSibling, h1, h2]
    · simp [siblingStep, keepSibling, h1, h2, sibRulesY, applyRules,
        apply_ite SnapResult.snapY]

theorem foldl_siblingStep_snapX (pid : String) (nx ny w h : Int) :
    ∀ (l : List (String × Panel)) (acc : SnapResult),
      (l.foldl (siblingStep pid nx ny w h) acc).snapX =
        applyRules acc.snapX
          ((l.filter (keepSibling pid)).flatMap (fun e => sibRulesX nx w e.2))
  | [], acc => rfl
  | e :: l, acc => by
      rw [List.foldl_cons, foldl_siblingStep_snapX pid nx ny w h l,
        siblingStep_snapX]
      by_cases hk : keepSibling pid e
      · simp [List.filter_cons, hk, applyRules_append]
      · simp [List.filter_cons, hk]

theorem foldl_siblingStep_snapY (pid : String) (nx ny w h : Int) :
    ∀ (l : List (String × Panel)) (acc : SnapResult),
      (l.foldl (siblingStep pid nx ny w h) acc).snapY =
        applyRules acc.snapY
          ((l.filter (keepSibling pid)).flatMap (fun e => sibRulesY ny h e.2))
  | [], acc => rfl
  | e :: l, acc => by
      rw [List.foldl_cons, foldl_siblingStep_snapY pid nx ny w h l,
        siblingStep_snapY]
      by_cases hk : keepSibling pid e
      · simp [List.filter_cons, hk, applyRules_append]
      · simp [List.filter_cons, hk]

theorem calculateSnap_snapX (ws : Workspace) (pid : String)
    (newX newY width height : Int) (panels : List (String × Panel)) :
    (calculateSnap ws pid newX newY width height panels).snapX =
      applyRules newX (snapRulesX ws pid newX width panels) := by
  unfold calculateSnap snapRulesX
  rw [foldl_siblingStep_snapX]
  rw [show ((([ (decide (|newX| < snapThreshold), (0 : Int)),
      (decide (|newX + width - ws.width| < snapThreshold), ws.width - width) ])
      ++ (panels.filter (keepSibling pid)).flatMap
        (fun e => sibRulesX newX width e.2))) =
      ([ (decide (|newX| < snapThreshold), (0 : Int)),
        (decide (|newX + width - ws.width| < snapThreshold), ws.width - width) ]
      ++ (panels.filter (keepSibling pid)).flatMap
        (fun e => sibRulesX newX width e.2)) from rfl]
  rw [applyRules_append]
  simp [applyRules, apply_ite SnapResult.snapX]

theorem calculateSnap_snapY (ws : Workspace) (pid : String)
    (newX newY width height : Int) (panels : List (String × Panel)) :
    (calculateSnap ws pid newX newY width height panels).snapY =
      applyRules newY (snapRulesY ws pid newY height panels) := by
  unfold calculateSnap snapRulesY
  rw [foldl_siblingStep_snapY]
  rw [applyRules_append]
  simp [applyRules, apply_ite SnapResult.snapY]

/-- Minimum-size soundness of one panel: its geometry, and any saved
previous bounds, respect the config minimums, and a maximized panel has
saved bounds to restore. -/
def geomOK (p : Panel) : Prop :=
  p.geom.width ≥ p.config.minWidth ∧ p.geom.height ≥ p.config.minHeight ∧
  (∀ b, p.flags.prevBounds = some b →
    b.width ≥ p.config.minWidth ∧ b.height ≥ p.config.minHeight) ∧
  (p.flags.maximized = true → p.flags.prevBounds ≠ none)

/-- Inductive minimum-size invariant of the engine state: keys are
unique, every panel is `geomOK`, and an active resize session captured
the minimums and a conforming start size of its target panel. -/
def sizeInv (m : PanelManager) : Prop :=
  keysND m.panels ∧
  (∀ e ∈ m.panels, geomOK e.2) ∧
  (∀ r, m.resizeState = some r → ∀ p, (r.id, p) ∈ m.panels →
    r.minWidth = p.config.minWidth ∧ r.minHeight = p.config.minHeight ∧
    r.startWidth ≥ p.config.minWidth ∧ r.startHeight ≥ p.config.minHeight)

theorem panelsOK_clearFocused {l : List (String × Panel)}
    (h : ∀ e ∈ l, geomOK e.2) : ∀ e ∈ clearFocused l, geomOK e.2 := by
  intro e he
  rcases mem_clearFocused he with ⟨p, hp, he2⟩
  have hg := h (e.1, p) hp
  rcases e with ⟨j, q⟩
  simp only at he2
  rw [he2]
  exact hg

theorem panelsOK_updateA {l : List (String × Panel)} {id : String}
    {f : Panel → Panel} (h : ∀ e ∈ l, geomOK e.2)
    (hf : ∀ a, (id, a) ∈ l → geomOK a → geomOK (f a)) :
    ∀ e ∈ updateA id f l, geomOK e.2 := by
  intro e he
  rcases mem_updateA he with he | ⟨a, ha, he2⟩
  · exact h e he
  · rw [he2]
    exact hf a ha (h (id, a) ha)

theorem linkOK_updateA {l : List (String × Panel)} {id : String}
    {f : Panel → Panel} {rs : Option ResizeData}
    (hl : ∀ r, rs = some r → ∀ p, (r.id, p) ∈ l →
      r.minWidth = p.config.minWidth ∧ r.minHeight = p.config.minHeight ∧
      r.startWidth ≥ p.config.minWidth ∧ r.startHeight ≥ p.config.minHeight)
    (hf : ∀ a, (f a).config = a.config) :
    ∀ r, rs = some r → ∀ p, (r.id, p) ∈ updateA id f l →
      r.minWidth = p.config.minWidth ∧ r.minHeight = p.config.minHeight ∧
      r.startWidth ≥ p.config.minWidth ∧ r.startHeight ≥ p.config.minHeight := by
  intro r hr p hp
  rcases mem_updateA hp with hp | ⟨a, ha, hpe⟩
  · exact hl r hr p hp
  · rw [Prod.mk.injEq] at hpe
    rw [hpe.2, hf a]
    exact hl r hr a (hpe.1 ▸ ha)

theorem linkOK_clearFocused {l : List (String × Panel)}
    {rs : Option ResizeData}
    (hl : ∀ r, rs = some r → ∀ p, (r.id, p) ∈ l →
      r.minWidth = p.config.minWidth ∧ r.minHeight = p.config.minHeight ∧
      r.startWidth ≥ p.config.minWidth ∧ r.startHeight ≥ p.config.minHeight) :
    ∀ r, rs = some r → ∀ p, (r.id, p) ∈ clearFocused l →
      r.minWidth = p.config.minWidth ∧ r.minHeight = p.config.minHeight ∧
      r.startWidth ≥ p.config.minWidth ∧ r.startHeight ≥ p.config.minHeight := by
  intro r hr p hp
  rcases mem_clearFocused hp with ⟨q, hq, hpe⟩
  simp only at hpe
  rw [hpe]
  exact hl r hr q hq

theorem sizeInv_focusPanel (id : String) (m : PanelManager)
    (h : sizeInv m) : sizeInv (focusPanel id m) := by
  obtain ⟨hnd, hok, hlink⟩ := h
  unfold focusPanel
  cases hc : lookupA id (clearFocused m.panels) with
  | none =>
      exact ⟨keysND_clearFocused hnd, panelsOK_clearFocused hok,
        linkOK_clearFocused hlink⟩
  | some p =>
      refine ⟨keysND_updateA (keysND_clearFocused hnd), ?_, ?_⟩
      · exact panelsOK_updateA (panelsOK_clearFocused hok)
          (fun a _ hg => hg)
      · exact linkOK_updateA (linkOK_clearFocused hlink) (fun a => rfl)

theorem sizeInv_savePanelStates (m : PanelManager)
    (h : sizeInv m) : sizeInv (savePanelStates m) := h

theorem sizeInv_loadPanelStates (m : PanelManager)
    (h : sizeInv m) : sizeInv (loadPanelStates m) := by
  unfold loadPanelStates
  cases m.store with
  | none => exact h
  | some data => exact h

theorem sizeInv_createPanel (cfg : CreateConfig) (m : PanelManager)
    (h : sizeInv m) (hres : m.resizeState = none)
    (hw : cfg.width.getD 300 ≥ cfg.minWidth.getD 200)
    (hh : cfg.height.getD 400 ≥ cfg.minHeight.getD 150) :
    sizeInv (createPanel cfg m) := by
  obtain ⟨hnd, hok, hlink⟩ := h
  refine ⟨keysND_setA hnd, ?_, ?_⟩
  · intro e he
    rcases mem_setA he with he | he
    · rw [he]
      exact ⟨hw, hh, by simp, by simp⟩
    · exact hok e he
  · intro r hr
    rw [show (createPanel cfg m).resizeState = m.resizeState from rfl,
      hres] at hr
    cases hr

theorem sizeInv_startDrag (id : String) (cx cy : Int) (m : PanelManager)
    (h : sizeInv m) : sizeInv (startDrag id cx cy m) := by
  have h1 := sizeInv_focusPanel id m h
  unfold startDrag
  cases hc : lookupA id (focusPanel id m).panels with
  | none => exact h1
  | some p => exact ⟨h1.1, h1.2.1, h1.2.2⟩

theorem sizeInv_startResize (id : String) (d : Dir) (cx cy : Int)
    (m : PanelManager) (h : sizeInv m) :
    sizeInv (startResize id d cx cy m) := by
  have h1 := sizeInv_focusPanel id m h
  unfold startResize
  cases hc : lookupA id (focusPanel id m).panels with
  | none => exact h1
  | some p =>
      dsimp only
      by_cases hrz : p.config.resizable
      · rw [if_pos hrz]
        obtain ⟨hnd, hok, _⟩ := h1
        refine ⟨hnd, hok, ?_⟩
        intro r hr q hq
        obtain rfl := Option.some_inj.mp hr
        dsimp only at hq
        have hq2 : q = p := by
          have hlq := lookupA_of_mem_nodup hnd hq
          rw [hc] at hlq
          exact (Option.some_inj.mp hlq).symm
        subst hq2
        have hg := hok (id, q) (lookupA_mem hc)
        exact ⟨rfl, rfl, hg.1, hg.2.1⟩
      · rw [if_neg hrz]
        exact h1

theorem sizeInv_handleDrag (ws : Workspace) (cx cy : Int)
    (m : PanelManager) (h : sizeInv m) :
    sizeInv (handleDrag ws cx cy m) := by
  obtain ⟨hnd, hok, hlink⟩ := h
  unfold handleDrag
  cases hd : m.dragState with
  | none => exact ⟨hnd, hok, hlink⟩
  | some d =>
      dsimp only
      refine ⟨keysND_updateA hnd, ?_, ?_⟩
      · exact panelsOK_updateA hok (fun a _ hg => hg)
      · exact linkOK_updateA hlink (fun a => rfl)

theorem sizeInv_handleResize (cx cy : Int) (m : PanelManager)
    (h : sizeInv m) : sizeInv (handleResize cx cy m) := by
  obtain ⟨hnd, hok, hlink⟩ := h
  unfold handleResize
  cases hr : m.resizeState with
  | none => exact ⟨hnd, hok, hlink⟩
  | some r =>
      dsimp only
      refine ⟨keysND_updateA hnd, ?_, ?_⟩
      · refine panelsOK_updateA hok ?_
        intro a ha hg
        obtain ⟨hmw, hmh, hsw, hsh⟩ := hlink r hr a ha
        refine ⟨?_, ?_, hg.2.2.1, hg.2.2.2⟩
        · show (if r.direction.hasW
                then max r.minWidth (r.startWidth - (cx - r.startX))
                else if r.direction.hasE
                  then max r.minWidth (r.startWidth + (cx - r.startX))
                  else r.startWidth) ≥ a.config.minWidth
          rw [← hmw]
          by_cases hW : r.direction.hasW
          · simp [hW, le_max_left]
          · by_cases hE : r.direction.hasE
            · simp [hW, hE, le_max_left]
            · simp only [hW, hE, Bool.false_eq_true, if_false]
              rw [hmw]
              exact hsw
        · show (if r.direction.hasN
                then max r.minHeight (r.startHeight - (cy - r.startY))
                else if r.direction.hasS
                  then max r.minHeight (r.startHeight + (cy - r.startY))
                  else r.startHeight) ≥ a.config.minHeight
          rw [← hmh]
          by_cases hN : r.direction.hasN
          · simp [hN, le_max_left]
          · by_cases hS : r.direction.hasS
            · simp [hN, hS, le_max_left]
            · simp only [hN, hS, Bool.false_eq_true, if_false]
              rw [hmh]
              exact hsh
      · exact linkOK_updateA (fun r2 hr2 => hlink r2 (hr.trans hr2))
          (fun a => rfl)

theorem sizeInv_handleMouseMove (ws : Workspace) (cx cy : Int)
    (m : PanelManager) (h : sizeInv m) :
    sizeInv (handleMouseMove ws cx cy m) := by
  unfold handleMouseMove
  by_cases hd : m.dragState.isSome
  · rw [if_pos hd]
    exact sizeInv_handleDrag ws cx cy m h
  · rw [if_neg hd]
    by_cases hrs : m.resizeState.isSome
    · rw [if_pos hrs]
      exact sizeInv_handleResize cx cy m h
    · rw [if_neg hrs]
      exact h

theorem handleMouseUp_panels (m : PanelManager) :
    (handleMouseUp m).panels = m.panels := by
  unfold handleMouseUp savePanelStates
  dsimp only
  split_ifs <;> rfl

theorem handleMouseUp_resizeState (m : PanelManager) :
    (handleMouseUp m).resizeState = none := rfl

theorem handleMouseUp_dragState (m : PanelManager) :
    (handleMouseUp m).dragState = none := rfl

theorem sizeInv_handleMouseUp (m : PanelManager) (h : sizeInv m) :
    sizeInv (handleMouseUp m) := by
  obtain ⟨hnd, hok, hlink⟩ := h
  refine ⟨?_, ?_, ?_⟩
  · show keysND (handleMouseUp m).panels
    rw [handleMouseUp_panels m]
    exact hnd
  · intro e he
    rw [handleMouseUp_panels m] at he
    exact hok e he
  · intro r hr
    rw [handleMouseUp_resizeState m] at hr
    cases hr

theorem sizeInv_minimizePanel (id : String) (m : PanelManager)
    (h : sizeInv m) : sizeInv (minimizePanel id m) := by
  obtain ⟨hnd, hok, hlink⟩ := h
  unfold minimizePanel
  cases hc : lookupA id m.panels with
  | none => exact ⟨hnd, hok, hlink⟩
  | some p =>
      dsimp only
      exact ⟨keysND_updateA hnd, panelsOK_updateA hok (fun a _ hg => hg),
        linkOK_updateA hlink (fun a => rfl)⟩

theorem sizeInv_toggleMaximize (id : String) (m : PanelManager)
    (h : sizeInv m) : sizeInv (toggleMaximize id m) := by
  obtain ⟨hnd, hok, hlink⟩ := h
  unfold toggleMaximize
  cases hc : lookupA id m.panels with
  | none => exact ⟨hnd, hok, hlink⟩
  | some p =>
      dsimp only
      by_cases hmax : p.flags.maximized
      · rw [if_pos hmax]
        refine ⟨keysND_updateA hnd, ?_, linkOK_updateA hlink (fun a => rfl)⟩
        refine panelsOK_updateA hok ?_
        intro a ha hg
        have ha2 : a = p := by
          have hla := lookupA_of_mem_nodup hnd ha
          rw [hc] at hla
          exact (Option.some_inj.mp hla).symm
        subst ha2
        obtain ⟨hg1, hg2, hg3, hg4⟩ := hg
        rcases hpb : a.flags.prevBounds with _ | b
        · exact absurd hpb (hg4 hmax)
        · have hbb := hg3 b hpb
          refine ⟨hbb.1, hbb.2, ?_, ?_⟩
          · intro b2 hb2
            have hb3 : b2 = b := (Option.some_inj.mp hb2).symm
            rw [hb3]
            exact hbb
          · intro _
            exact Option.some_ne_none _
      · rw [if_neg hmax]
        refine ⟨keysND_updateA hnd, ?_, linkOK_updateA hlink (fun a => rfl)⟩
        refine panelsOK_updateA hok ?_
        intro a ha hg
        obtain ⟨hg1, hg2, hg3, hg4⟩ := hg
        refine ⟨hg1, hg2, ?_, ?_⟩
        · intro b hb
          have hb2 : b = a.geom := (Option.some_inj.mp hb).symm
          rw [hb2]
          exact ⟨hg1, hg2⟩
        · intro _
          exact Option.some_ne_none _

theorem sizeInv_closePanel (id : String) (m : PanelManager)
    (h : sizeInv m) : sizeInv (closePanel id m) := by
  obtain ⟨hnd, hok, hlink⟩ := h
  unfold closePanel
  cases hc : lookupA id m.panels with
  | none => exact ⟨hnd, hok, hlink⟩
  | some p =>
      dsimp only
      refine ⟨keysND_removeA hnd, ?_, ?_⟩
      · intro e he
        exact hok e (mem_removeA he)
      · intro r hr q hq
        exact hlink r hr q (mem_removeA hq)

theorem sizeInv_showPanel (id : String) (m : PanelManager)
    (h : sizeInv m) : sizeInv (showPanel id m) := by
  obtain ⟨hnd, hok, hlink⟩ := h
  unfold showPanel
  cases hc : lookupA id m.panels with
  | none => exact ⟨hnd, hok, hlink⟩
  | some p =>
      dsimp only
      exact sizeInv_focusPanel id _
        ⟨keysND_updateA hnd, panelsOK_updateA hok (fun a _ hg => hg),
          linkOK_updateA hlink (fun a => rfl)⟩

/-- Maximize soundness of one panel: a maximized panel has bounds saved
to restore. -/
def prevOK (p : Panel) : Prop :=
  p.flags.maximized = true → p.flags.prevBounds ≠ none

/-- The maximize invariant of claim C2 that actually holds: every
maximized panel carries a non-null `prevBounds`. -/
def maxInv (m : PanelManager) : Prop := ∀ e ∈ m.panels, prevOK e.2

theorem prevOK_updateA {l : List (String × Panel)} {id : String}
    {f : Panel → Panel} (h : ∀ e ∈ l, prevOK e.2)
    (hf : ∀ a, (id, a) ∈ l → prevOK a → prevOK (f a)) :
    ∀ e ∈ updateA id f l, prevOK e.2 := by
  intro e he
  rcases mem_updateA he with he | ⟨a, ha, he2⟩
  · exact h e he
  · rw [he2]
    exact hf a ha (h (id, a) ha)

theorem prevOK_clearFocused {l : List (String × Panel)}
    (h : ∀ e ∈ l, prevOK e.2) : ∀ e ∈ clearFocused l, prevOK e.2 := by
  intro e he
  rcases mem_clearFocused he with ⟨p, hp, he2⟩
  have hg := h (e.1, p) hp
  rcases e with ⟨j, q⟩
  simp only at he2
  rw [he2]
  exact hg

theorem maxInv_focusPanel (id : String) (m : PanelManager)
    (h : maxInv m) : maxInv (focusPanel id m) := by
  unfold focusPanel
  cases hc : lookupA id (clearFocused m.panels) with
  | none => exact prevOK_clearFocused h
  | some p =>
      exact prevOK_updateA (prevOK_clearFocused h) (fun a _ hg => hg)

theorem maxInv_createPanel (cfg : CreateConfig) (m : PanelManager)
    (h : maxInv m) : maxInv (createPanel cfg m) := by
  intro e he
  rcases mem_setA he with he | he
  · rw [he]
    intro hfalse
    exact absurd hfalse (by simp)
  · exact h e he

theorem maxInv_startDrag (id : String) (cx cy : Int) (m : PanelManager)
    (h : maxInv m) : maxInv (startDrag id cx cy m) := by
  have h1 := maxInv_focusPanel id m h
  unfold startDrag
  cases hc : lookupA id (focusPanel id m).panels with
  | none => exact h1
  | some p => exact h1

theorem maxInv_startResize (id : String) (d : Dir) (cx cy : Int)
    (m : PanelManager) (h : maxInv m) :
    maxInv (startResize id d cx cy m) := by
  have h1 := maxInv_focusPanel id m h
  unfold startResize
  cases hc : lookupA id (focusPanel id m).panels with
  | none => exact h1
  | some p =>
      dsimp only
      by_cases hrz : p.config.resizable
      · rw [if_pos hrz]
        exact h1
      · rw [if_neg hrz]
        exact h1

theorem maxInv_handleDrag (ws : Workspace) (cx cy : Int)
    (m : PanelManager) (h : maxInv m) : maxInv (handleDrag ws cx cy m) := by
  unfold handleDrag
  cases hd : m.dragState with
  | none => exact h
  | some d =>
      dsimp only
      exact prevOK_updateA h (fun a _ hg => hg)

theorem maxInv_handleResize (cx cy : Int) (m : PanelManager)
    (h : maxInv m) : maxInv (handleResize cx cy m) := by
  unfold handleResize
  cases hr : m.resizeState with
  | none => exact h
  | some r =>
      dsimp only
      exact prevOK_updateA h (fun a _ hg => hg)

theorem maxInv_handleMouseMove (ws : Workspace) (cx cy : Int)
    (m : PanelManager) (h : maxInv m) :
    maxInv (handleMouseMove ws cx cy m) := by
  unfold handleMouseMove
  by_cases hd : m.dragState.isSome
  · rw [if_pos hd]
    exact maxInv_handleDrag ws cx cy m h
  · rw [if_neg hd]
    by_cases hrs : m.resizeState.isSome
    · rw [if_pos hrs]
      exact maxInv_handleResize cx cy m h
    · rw [if_neg hrs]
      exact h

theorem maxInv_handleMouseUp (m : PanelManager) (h : maxInv m) :
    maxInv (handleMouseUp m) := by
  intro e he
  rw [handleMouseUp_panels m] at he
  exact h e he

theorem maxInv_minimizePanel (id : String) (m : PanelManager)
    (h : maxInv m) : maxInv (minimizePanel id m) := by
  unfold minimizePanel
  cases hc : lookupA id m.panels with
  | none => exact h
  | some p =>
      dsimp only
      exact prevOK_updateA h (fun a _ hg => hg)

theorem maxInv_toggleMaximize (id : String) (m : PanelManager)
    (h : maxInv m) : maxInv (toggleMaximize id m) := by
  unfold toggleMaximize
  cases hc : lookupA id m.panels with
  | none => exact h
  | some p =>
      dsimp only
      by_cases hmax : p.flags.maximized
      · rw [if_pos hmax]
        refine prevOK_updateA h ?_
        intro a _ _
        intro hfalse
        exact absurd hfalse (by simp)
      · rw [if_neg hmax]
        refine prevOK_updateA h ?_
        intro a _ _
        intro _
        exact Option.some_ne_none _

theorem maxInv_closePanel (id : String) (m : PanelManager)
    (h : maxInv m) : maxInv (closePanel id m) := by
  unfold closePanel
  cases hc : lookupA id m.panels with
  | none => exact h
  | some p =>
      dsimp only
      intro e he
      exact h e (mem_removeA he)

theorem maxInv_showPanel (id : String) (m : PanelManager)
    (h : maxInv m) : maxInv (showPanel id m) := by
  unfold showPanel
  cases hc : lookupA id m.panels with
  | none => exact h
  | some p =>
      dsimp only
      exact maxInv_focusPanel id _ (prevOK_updateA h (fun a _ hg => hg))

theorem maxInv_savePanelStates (m : PanelManager) (h : maxInv m) :
    maxInv (savePanelStates m) := h

theorem maxInv_loadPanelStates (m : PanelManager) (h : maxInv m) :
    maxInv (loadPanelStates m) := by
  unfold loadPanelStates
  cases m.store with
  | none => exact h
  | some data => exact h

/-- Concrete creation config used by the example states. -/
def demoConfig (pid : String) (x y w h mw mh : Int) : CreateConfig :=
  { id := pid, x := some x, y := some y, width := some w, height := some h,
    minWidth := some mw, minHeight := some mh, resizable := none,
    closable := none }

/-- Concrete workspace, 1000 by 800. -/
def demoWorkspace : Workspace := ⟨1000, 800⟩

/-- A fresh engine with one panel `p1` at `(100, 100, 300, 200)` with
minimums `200` by `150`. -/
def demoBase : PanelManager :=
  createPanel (demoConfig "p1" 100 100 300 200 200 150) (newPanelManager none)

/-- The panel entry of `p1` in `demoBase`. -/
def demoPanel : Panel :=
  { geom := ⟨100, 100, 300, 200⟩, zIndex := 0, focused := false,
    hidden := false, maximizedClass := false,
    config := ⟨200, 150, true, true⟩, flags := ⟨false, false, none⟩ }

/-- A west-handle resize session on `p1` started at pointer
`(500, 500)`. -/
def demoResize : PanelManager := startResize "p1" Dir.w 500 500 demoBase

/-- A state where a drag was started while a resize session was still
active. -/
def demoBoth : PanelManager :=
  startDrag "p1" 5 5 (startResize "p1" Dir.e 0 0 demoBase)

/-- C1 (amended).  The engine maintains the minimum-size invariant
`sizeInv` (every panel geometry and saved previous bounds at or above the
config minimums) across every public operation, with one exception that
forces the amendment: `createPanel` performs no clamping, so it preserves
the invariant only when the effective config width/height already meet
the effective minimums (and no resize session is pending).  The first
conjunct states that `sizeInv` entails the spec bound
`width >= minWidth` and `height >= minHeight` for every panel. -/
theorem c1_min_size_invariant :
    (∀ m, sizeInv m → ∀ e ∈ m.panels,
      e.2.geom.width ≥ e.2.config.minWidth ∧
      e.2.geom.height ≥ e.2.config.minHeight) ∧
    (∀ m cfg, sizeInv m → m.resizeState = none →
      cfg.width.getD 300 ≥ cfg.minWidth.getD 200 →
      cfg.height.getD 400 ≥ cfg.minHeight.getD 150 →
      sizeInv (createPanel cfg m)) ∧
    (∀ m id, sizeInv m → sizeInv (focusPanel id m)) ∧
    (∀ m id cx cy, sizeInv m → sizeInv (startDrag id cx cy m)) ∧
    (∀ m id d cx cy, sizeInv m → sizeInv (startResize id d cx cy m)) ∧
    (∀ m ws cx cy, sizeInv m → sizeInv (handleMouseMove ws cx cy m)) ∧
    (∀ m, sizeInv m → sizeInv (handleMouseUp m)) ∧
    (∀ m id, sizeInv m → sizeInv (minimizePanel id m)) ∧
    (∀ m id, sizeInv m → sizeInv (toggleMaximize id m)) ∧
    (∀ m id, sizeInv m → sizeInv (closePanel id m)) ∧
    (∀ m id, sizeInv m → sizeInv (showPanel id m)) ∧
    (∀ m, sizeInv m → sizeInv (savePanelStates m)) ∧
    (∀ m, sizeInv m → sizeInv (loadPanelStates m)) :=
  ⟨fun _ h e he => ⟨(h.2.1 e he).1, (h.2.1 e he).2.1⟩,
   fun m cfg h hres hw hh => sizeInv_createPanel cfg m h hres hw hh,
   fun m id h => sizeInv_focusPanel id m h,
   fun m id cx cy h => sizeInv_startDrag id cx cy m h,
   fun m id d cx cy h => sizeInv_startResize id d cx cy m h,
   fun m ws cx cy h => sizeInv_handleMouseMove ws cx cy m h,
   fun m h => sizeInv_handleMouseUp m h,
   fun m id h => sizeInv_minimizePanel id m h,
   fun m id h => sizeInv_toggleMaximize id m h,
   fun m id h => sizeInv_closePanel id m h,
   fun m id h => sizeInv_showPanel id m h,
   fun m h => sizeInv_savePanelStates m h,
   fun m h => sizeInv_loadPanelStates m h⟩

/-- C1, refuted as stated: a panel created with config width 50 below its
minWidth 200 keeps width 50, so the invariant does not hold right after
`createPanel` with a sub-minimum config. -/
theorem c1_counterexample :
    (getPanel (createPanel (demoConfig "p2" 0 0 50 40 200 150) demoBase)
        "p2").map (fun p => (p.geom.width, p.config.minWidth))
      = some (50, 200) ∧ (50 : Int) < 200 := by
  decide

/-- C1 witness: the preservation theorem applied at a concrete state and
config whose sizes meet the minimums. -/
theorem c1_witness :
    sizeInv (createPanel (demoConfig "p1" 100 100 300 200 200 150)
      (newPanelManager none)) := by
  have h0 : sizeInv (newPanelManager none) := by
    refine ⟨?_, ?_, ?_⟩
    · simp [newPanelManager, freshManager, loadPanelStates, keysND]
    · intro e he
      exact absurd he (List.not_mem_nil e)
    · intro r hr
      exact Option.noConfusion hr
  exact c1_min_size_invariant.2.1 (newPanelManager none)
    (demoConfig "p1" 100 100 300 200 200 150) h0 rfl (by decide) (by decide)

/-- C2 (amended).  One direction of the claimed invariant holds and is
preserved by every public operation: a maximized panel always has a
non-null `prevBounds` (`maxInv`).  The converse direction is false
because the restore branch of `toggleMaximize` never clears `prevBounds`
(see the counterexample). -/
theorem c2_maximized_prev_bounds :
    (∀ m cfg, maxInv m → maxInv (createPanel cfg m)) ∧
    (∀ m id, maxInv m → maxInv (focusPanel id m)) ∧
    (∀ m id cx cy, maxInv m → maxInv (startDrag id cx cy m)) ∧
    (∀ m id d cx cy, maxInv m → maxInv (startResize id d cx cy m)) ∧
    (∀ m ws cx cy, maxInv m → maxInv (handleMouseMove ws cx cy m)) ∧
    (∀ m, maxInv m → maxInv (handleMouseUp m)) ∧
    (∀ m id, maxInv m → maxInv (minimizePanel id m)) ∧
    (∀ m id, maxInv m → maxInv (toggleMaximize id m)) ∧
    (∀ m id, maxInv m → maxInv (closePanel id m)) ∧
    (∀ m id, maxInv m → maxInv (showPanel id m)) ∧
    (∀ m, maxInv m → maxInv (savePanelStates m)) ∧
    (∀ m, maxInv m → maxInv (loadPanelStates m)) :=
  ⟨fun m cfg h => maxInv_createPanel cfg m h,
   fun m id h => maxInv_focusPanel id m h,
   fun m id cx cy h => maxInv_startDrag id cx cy m h,
   fun m id d cx cy h => maxInv_startResize id d cx cy m h,
   fun m ws cx cy h => maxInv_handleMouseMove ws cx cy m h,
   fun m h => maxInv_handleMouseUp m h,
   fun m id h => maxInv_minimizePanel id m h,
   fun m id h => maxInv_toggleMaximize id m h,
   fun m id h => maxInv_closePanel id m h,
   fun m id h => maxInv_showPanel id m h,
   fun m h => maxInv_savePanelStates m h,
   fun m h => maxInv_loadPanelStates m h⟩

/-- C2, refuted as stated: after maximize and restore the panel is not
maximized yet still holds the stale `prevBounds`, contradicting the
claimed equivalence (not maximized implies `previousBounds` null). -/
theorem c2_counterexample :
    (getPanel (toggleMaximize "p1" (toggleMaximize "p1" demoBase))
        "p1").map (fun p => (p.flags.maximized, p.flags.prevBounds))
      = some (false, some ⟨100, 100, 300, 200⟩) := by
  decide

/-- C2 witness: the preservation theorem applied to the maximize step at
a concrete state. -/
theorem c2_witness : maxInv (toggleMaximize "p1" demoBase) := by
  have h0 : maxInv demoBase := by
    unfold maxInv prevOK
    decide
  exact c2_maximized_prev_bounds.2.2.2.2.2.2.2.1 demoBase "p1" h0

/-- C3 (amended).  Scenario: `p1` has `minWidth = 200` and geometry
`(100, 100, 300, 200)`; a west-handle resize with pointer delta
`dx = -50` gives `width = 350` and `left = 50`; with `dx = +150` the
width clamps to `200` but `left` reverts to the session start value
`100` (the left offset is applied only while the clamped width strictly
exceeds the minimum), so the east edge moves from `400` to `300`. -/
theorem c3_resize_clamp :
    (getPanel (handleMouseMove demoWorkspace 450 500 demoResize)
        "p1").map (fun p => p.geom) = some ⟨50, 100, 350, 200⟩ ∧
    (getPanel (handleMouseMove demoWorkspace 650 500 demoResize)
        "p1").map (fun p => p.geom) = some ⟨100, 100, 200, 200⟩ := by
  decide

/-- C3, refuted as stated: after a move with `dx = 99` the panel is at
`left = 199` with `width = 201 >= 200`; the next move with `dx = 150`
clamps width to `200` but puts `left` at `100`, not at the last position
where the width was still above the minimum, and the east anchor edge
moves (`100 + 200` differs from `100 + 300`). -/
theorem c3_counterexample :
    (getPanel (handleMouseMove demoWorkspace 599 500 demoResize)
        "p1").map (fun p => p.geom) = some ⟨199, 100, 201, 200⟩ ∧
    (getPanel (handleMouseMove demoWorkspace 650 500
        (handleMouseMove demoWorkspace 599 500 demoResize))
        "p1").map (fun p => p.geom) = some ⟨100, 100, 200, 200⟩ ∧
    (100 : Int) ≠ 199 ∧ (100 : Int) + 200 ≠ 100 + 300 := by
  decide

/-- C4 (amended).  On an unknown panel id, `closePanel`,
`toggleMaximize`, `minimizePanel` and `showPanel` leave the state exactly
unchanged (and, being total functions, raise nothing), but `focusPanel`
is not a no-op: it clears the `focused` class on every panel before the
existence check. -/
theorem c4_unknown_id :
    ∀ m id, lookupA id m.panels = none →
      closePanel id m = m ∧ toggleMaximize id m = m ∧
      minimizePanel id m = m ∧ showPanel id m = m ∧
      focusPanel id m = { m with panels := clearFocused m.panels } := by
  intro m id h
  have h2 : lookupA id (clearFocused m.panels) = none := by
    rw [lookupA_clearFocused, h]
    rfl
  refine ⟨?_, ?_, ?_, ?_, ?_⟩
  · unfold closePanel
    rw [h]
  · unfold toggleMaximize
    rw [h]
  · unfold minimizePanel
    rw [h]
  · unfold showPanel
    rw [h]
  · unfold focusPanel
    rw [h2]

/-- C4, refuted as stated: with `p1` focused, `focusPanel` on the
unknown id `ghost` changes the state (it strips the focused flag from
`p1`). -/
theorem c4_counterexample :
    getPanel (focusPanel "p1" demoBase) "ghost" = none ∧
    focusPanel "ghost" (focusPanel "p1" demoBase)
      ≠ focusPanel "p1" demoBase := by
  decide

/-- C4 witness: the amended no-op theorem applied at a concrete state and
unknown id. -/
theorem c4_witness :
    closePanel "ghost" demoBase = demoBase ∧
    toggleMaximize "ghost" demoBase = demoBase ∧
    minimizePanel "ghost" demoBase = demoBase ∧
    showPanel "ghost" demoBase = demoBase ∧
    focusPanel "ghost" demoBase
      = { demoBase with panels := clearFocused demoBase.panels } :=
  c4_unknown_id demoBase "ghost" (by decide)

/-- A sibling rectangle at `(14, 700, 10, 10)` whose left edge sits 12
pixels from the snap candidate. -/
def demoSibling : Panel :=
  { geom := ⟨14, 700, 10, 10⟩, zIndex := 0, focused := false,
    hidden := false, maximizedClass := false,
    config := ⟨200, 150, true, true⟩, flags := ⟨false, false, none⟩ }

/-- C5 (confirmed).  For all inputs, the snap computation returns for
`snapX`/`snapY` exactly the value of the last matching rule in the rule
lists `snapRulesX`/`snapRulesY`, whose order is workspace-left,
workspace-right (resp. top, bottom) followed by the four edge
relationship rules of each non-hidden non-maximized sibling in registry
order.  The concrete conjuncts show the policy is last-match, not
nearest-match: at candidate `x = 2` the workspace-left rule matches at
distance 2, yet the later sibling rule at distance 12 wins and the
result is 14. -/
theorem c5_snap_last_match_wins :
    (∀ ws pid newX newY width height panels,
      (calculateSnap ws pid newX newY width height panels).snapX
        = lastMatch (snapRulesX ws pid newX width panels) newX ∧
      (calculateSnap ws pid newX newY width height panels).snapY
        = lastMatch (snapRulesY ws pid newY height panels) newY) ∧
    (calculateSnap demoWorkspace "m" 2 400 300 200
      [("a", demoSibling)]).snapX = 14 ∧
    |(2 : Int) - 0| < snapThreshold ∧
    |(2 : Int) - 0| < |(2 : Int) - 14| := by
  refine ⟨?_, by decide, by decide, by decide⟩
  intro ws pid newX newY width height panels
  constructor
  · rw [calculateSnap_snapX, applyRules_eq_lastMatch]
  · rw [calculateSnap_snapY, applyRules_eq_lastMatch]

/-- The maximize arm of `toggleMaximize` written as an explicit panels
update, for rewriting. -/
theorem toggleMaximize_not_maximized {m : PanelManager} {id : String}
    {p : Panel} (h1 : lookupA id m.panels = some p)
    (h2 : p.flags.maximized = false) :
    toggleMaximize id m =
      { m with panels := (updateA id
          (fun q => { q with
                      maximizedClass := true,
                      flags := { q.flags with
                                 maximized := true,
                                 prevBounds := some q.geom } }) m.panels) } := by
  unfold toggleMaximize
  rw [h1]
  dsimp only
  rw [if_neg (by simp [h2])]

/-- The restore arm of `toggleMaximize` written as an explicit panels
update, for rewriting. -/
theorem toggleMaximize_maximized {m : PanelManager} {id : String}
    {p : Panel} (h1 : lookupA id m.panels = some p)
    (h2 : p.flags.maximized = true) :
    toggleMaximize id m =
      { m with panels := (updateA id
          (fun q => { q with
                      geom := q.flags.prevBounds.getD ⟨0, 0, 0, 0⟩,
                      maximizedClass := false,
                      flags := { q.flags with maximized := false } })
          m.panels) } := by
  unfold toggleMaximize
  rw [h1]
  dsimp only
  rw [if_pos h2]

/-- C6 (amended).  For a panel that is not currently maximized, calling
`toggleMaximize` twice restores its geometry exactly, whatever the
starting geometry.  When the panel is already maximized the double
toggle instead resets the geometry to the stored `previousBounds`,
discarding any change made while maximized (see the counterexample). -/
theorem c6_toggle_twice_restores :
    ∀ m id p, getPanel m id = some p → p.flags.maximized = false →
      ∃ q, getPanel (toggleMaximize id (toggleMaximize id m)) id = some q ∧
        q.geom = p.geom := by
  intro m id p h1 h2
  unfold getPanel at h1 ⊢
  rw [toggleMaximize_not_maximized h1 h2]
  have hl1 : lookupA id (updateA id
      (fun q => { q with
                  maximizedClass := true,
                  flags := { q.flags with
                             maximized := true,
                             prevBounds := some q.geom } }) m.panels)
      = some { p with
               maximizedClass := true,
               flags := { p.flags with
                          maximized := true,
                          prevBounds := some p.geom } } := by
    rw [lookupA_updateA_self, h1]
    rfl
  rw [toggleMaximize_maximized hl1 rfl]
  rw [lookupA_updateA_self, hl1]
  exact ⟨_, rfl, rfl⟩

/-- C6, refuted as stated: maximize `p1`, drag it to `(130, 140)` while
maximized, finish the drag; the geometry is now `(130, 140, 300, 200)`
but a double `toggleMaximize` yields `(100, 100, 300, 200)`, not the
pre-call geometry. -/
theorem c6_counterexample :
    (getPanel (handleMouseUp (handleMouseMove demoWorkspace 130 140
        (startDrag "p1" 100 100 (toggleMaximize "p1" demoBase)))) "p1").map
        (fun p => (p.geom, p.flags.maximized))
      = some (⟨130, 140, 300, 200⟩, true) ∧
    (getPanel (toggleMaximize "p1" (toggleMaximize "p1"
        (handleMouseUp (handleMouseMove demoWorkspace 130 140
          (startDrag "p1" 100 100 (toggleMaximize "p1" demoBase))))))
        "p1").map (fun p => p.geom)
      = some ⟨100, 100, 300, 200⟩ ∧
    (⟨100, 100, 300, 200⟩ : Geometry) ≠ ⟨130, 140, 300, 200⟩ := by
  decide

/-- C6 witness: the double-toggle theorem applied at the concrete state
`demoBase`. -/
theorem c6_witness :
    ∃ q, getPanel (toggleMaximize "p1" (toggleMaximize "p1" demoBase))
        "p1" = some q ∧ q.geom = demoPanel.geom :=
  c6_toggle_twice_restores demoBase "p1" demoPanel (by decide) (by decide)

/-- C7 (amended).  The mutual exclusion claimed by the spec is not
enforced at drag start: `startDrag` during an active resize session
leaves both sessions set (see the counterexample).  What does hold:
`handleMouseUp` always returns both sessions to Idle, and while both
sessions are set `handleMouseMove` gives the drag session priority. -/
theorem c7_session_exclusion :
    (∀ m, (handleMouseUp m).dragState = none ∧
      (handleMouseUp m).resizeState = none) ∧
    (∀ m ws cx cy, m.dragState.isSome = true →
      handleMouseMove ws cx cy m = handleDrag ws cx cy m) := by
  constructor
  · intro m
    exact ⟨handleMouseUp_dragState m, handleMouseUp_resizeState m⟩
  · intro m ws cx cy h
    unfold handleMouseMove
    rw [if_pos h]

/-- C7, refuted as stated: starting a drag while a resize session is
active is not ignored; afterwards both a drag session and a resize
session are simultaneously active. -/
theorem c7_counterexample :
    demoBoth.dragState.isSome = true ∧
    demoBoth.resizeState.isSome = true := by
  decide

/-- C7 witness: the amended theorem applied at the concrete
both-sessions state. -/
theorem c7_witness :
    ((handleMouseUp demoBoth).dragState = none ∧
      (handleMouseUp demoBoth).resizeState = none) ∧
    handleMouseMove demoWorkspace 10 10 demoBoth
      = handleDrag demoWorkspace 10 10 demoBoth :=
  ⟨c7_session_exclusion.1 demoBoth,
   c7_session_exclusion.2 demoBoth demoWorkspace 10 10 (by decide)⟩

/-- C8 (confirmed).  For every panel present at save time, a fresh
engine instance constructed over the saved store yields, through
`getSavedState` after `loadPanelStates`, exactly the panel entry
`{x, y, width, height, minimized, maximized}` as it was at save time. -/
theorem c8_save_load_roundtrip :
    ∀ m id p, lookupA id m.panels = some p →
      getSavedState (newPanelManager (savePanelStates m).store) id
        = some (mkEntry p) := by
  intro m id p h
  unfold newPanelManager freshManager loadPanelStates savePanelStates
    getSavedState
  dsimp only
  have h2 := lookupA_map_value id mkEntry m.panels
  rw [h2, h]
  rfl

/-- C8 witness: the round-trip theorem applied at the concrete one-panel
state. -/
theorem c8_witness :
    getSavedState (newPanelManager (savePanelStates demoBase).store) "p1"
      = some (mkEntry demoPanel) :=
  c8_save_load_roundtrip demoBase "p1" demoPanel (by decide)

/-- C9 (confirmed).  When a persisted entry exists for the id, the
creation path used by the repository panels (`getSavedState` feeding
`createPanel`, with the caller fallback only for absent saved values)
gives the new panel exactly the persisted `x, y, width, height` rather
than the caller defaults; and `loadPanelStates` never mutates any live
panel. -/
theorem c9_saved_geometry_default :
    (∀ m pid fx fy fw fh mw mh e, getSavedState m pid = some e →
      getPanel (createPanelWithSavedDefaults m pid fx fy fw fh mw mh) pid
        = some { geom := ⟨e.x, e.y, e.width, e.height⟩, zIndex := 0,
                 focused := false, hidden := false, maximizedClass := false,
                 config := ⟨mw, mh, true, true⟩,
                 flags := ⟨false, false, none⟩ }) ∧
    (∀ m, (loadPanelStates m).panels = m.panels) := by
  constructor
  · intro m pid fx fy fw fh mw mh e he
    unfold createPanelWithSavedDefaults createPanel getPanel
    rw [he]
    dsimp only
    rw [lookupA_setA_self]
    rfl
  · intro m
    unfold loadPanelStates
    rcases hs : m.store with _ | data
    · rfl
    · rfl

/-- C9 witness: the theorem applied to a fresh engine loaded from the
store saved out of `demoBase`, with caller fallbacks that differ from
the persisted geometry. -/
theorem c9_witness :
    getPanel (createPanelWithSavedDefaults
        (newPanelManager (savePanelStates demoBase).store)
        "p1" 1 2 3 4 380 300) "p1"
      = some { geom := ⟨100, 100, 300, 200⟩, zIndex := 0,
               focused := false, hidden := false, maximizedClass := false,
               config := ⟨380, 300, true, true⟩,
               flags := ⟨false, false, none⟩ } ∧
    (loadPanelStates demoBase).panels = demoBase.panels :=
  ⟨c9_saved_geometry_default.1
      (newPanelManager (savePanelStates demoBase).store)
      "p1" 1 2 3 4 380 300 (mkEntry demoPanel) (by decide),
   c9_saved_geometry_default.2 demoBase⟩

/-- C10 (confirmed).  `showPanel` on a known panel clears its minimized
flag and hidden class and focuses it, even if it was already visible:
the panel gets `focused = true` and the freshly incremented `zIndex`
`topZIndex + 1`, while every other panel ends up unfocused and (when all
previous `zIndex` values were at most `topZIndex`) strictly below it. -/
theorem c10_show_panel_focuses :
    ∀ m id p, lookupA id m.panels = some p →
      (∀ e ∈ m.panels, e.2.zIndex ≤ m.topZIndex) →
      ∃ q, getPanel (showPanel id m) id = some q ∧
        q.flags.minimized = false ∧ q.hidden = false ∧ q.focused = true ∧
        q.zIndex = m.topZIndex + 1 ∧
        (showPanel id m).topZIndex = m.topZIndex + 1 ∧
        (∀ e ∈ (showPanel id m).panels, e.1 ≠ id →
          e.2.focused = false ∧ e.2.zIndex < q.zIndex) := by
  intro m id p h1 hz
  unfold showPanel
  rw [h1]
  dsimp only
  unfold getPanel focusPanel
  have hl1 : lookupA id (updateA id
      (fun p => { p with
                  hidden := false,
                  flags := { p.flags with minimized := false } }) m.panels)
      = some { p with
               hidden := false,
               flags := { p.flags with minimized := false } } := by
    rw [lookupA_updateA_self, h1]
    rfl
  have hl2 : lookupA id (clearFocused (updateA id
      (fun p => { p with
                  hidden := false,
                  flags := { p.flags with minimized := false } }) m.panels))
      = some { p with
               hidden := false,
               focused := false,
               flags := { p.flags with minimized := false } } := by
    rw [lookupA_clearFocused, hl1]
    rfl
  rw [hl2]
  dsimp only
  refine ⟨{ p with
            hidden := false,
            focused := true,
            zIndex := m.topZIndex + 1,
            flags := { p.flags with minimized := false } },
    ?_, rfl, rfl, rfl, rfl, rfl, ?_⟩
  · rw [lookupA_updateA_self, hl2]
    rfl
  · intro e he hne
    rcases mem_updateA he with he | ⟨a, ha, he2⟩
    · rcases mem_clearFocused he with ⟨b, hb, he3⟩
      rcases mem_updateA hb with hb | ⟨a2, ha2, hb2⟩
      · constructor
        · rw [he3]
        · rw [he3]
          have hzb : b.zIndex ≤ m.topZIndex := hz (e.1, b) hb
          show b.zIndex < m.topZIndex + 1
          omega
      · exfalso
        apply hne
        exact congrArg Prod.fst hb2
    · exfalso
      apply hne
      exact congrArg Prod.fst he2

/-- The entry of `p1` after `minimizePanel`. -/
def demoPanelMin : Panel :=
  { geom := ⟨100, 100, 300, 200⟩, zIndex := 0, focused := false,
    hidden := true, maximizedClass := false,
    config := ⟨200, 150, true, true⟩, flags := ⟨true, false, none⟩ }

/-- C10 witness: the theorem applied to `p1` after it was minimized. -/
theorem c10_witness :
    ∃ q, getPanel (showPanel "p1" (minimizePanel "p1" demoBase)) "p1"
        = some q ∧
      q.flags.minimized = false ∧ q.hidden = false ∧ q.focused = true ∧
      q.zIndex = (minimizePanel "p1" demoBase).topZIndex + 1 ∧
      (showPanel "p1" (minimizePanel "p1" demoBase)).topZIndex
        = (minimizePanel "p1" demoBase).topZIndex + 1 ∧
      (∀ e ∈ (showPanel "p1" (minimizePanel "p1" demoBase)).panels,
        e.1 ≠ "p1" → e.2.focused = false ∧ e.2.zIndex < q.zIndex) :=
  c10_show_panel_focuses (minimizePanel "p1" demoBase) "p1" demoPanelMin
    (by decide) (by decide)

end Orbrya
